import Mathlib

/-!
Verification of the file-drive core (`convex/files.ts`): organization-scoped
file records with soft deletion, scheduled purge, and per-user favorites.

The embedding models the Convex document store as explicit lists of records
plus a fresh-id allocator.  Mutations return `Except Err DB`; a thrown
`ConvexError` is an `Except.error` carrying a constructor named after the
thrown message.  Queries return their result directly.  External
collaborators (the authenticated user resolved by `getUser`, the blob
storage gateway) are passed in as explicit arguments: the actor is an
`Option User` (`none` = unauthenticated), URL resolution is a function
`Nat → Option String`, and blob deletion success is an oracle
`Nat → Bool`.
-/

deriving instance DecidableEq for Except

namespace FileDrive

/-- Organization membership entry of a user: `{ orgId, role }` as stored in
`users.orgIds` (read-only input to authorization). -/
structure Membership where
  orgId : String
  role : String
deriving DecidableEq

/-- A user document: its id and organization memberships. -/
structure User where
  _id : Nat
  orgIds : List Membership
deriving DecidableEq

/-- Modelled from the spec: the enumerated file category (the `fileTypes`
validator imported from `schema.ts`, which is not part of the given source).
The particular constructors are irrelevant to every property proved here;
only exact equality of categories is used. -/
inductive FileType where
  | image
  | csv
  | pdf
deriving DecidableEq

/-- A file document as inserted by `createFile`: note `shouldDelete` is an
optional field (`Option Bool`), absent (`none`) on freshly created files. -/
structure FileDoc where
  _id : Nat
  name : String
  orgId : String
  fileId : Nat
  type : FileType
  userId : Nat
  shouldDelete : Option Bool
deriving DecidableEq

/-- A favorite document: the presence-based (user, org, file) join relation. -/
structure FavoriteDoc where
  _id : Nat
  fileId : Nat
  userId : Nat
  orgId : String
deriving DecidableEq

/-- The document store: the `files` and `favorites` tables plus the fresh-id
allocator used by `ctx.db.insert`. -/
structure DB where
  files : List FileDoc
  favorites : List FavoriteDoc
  nextId : Nat
deriving DecidableEq

/-- Typed failures, one constructor per distinct `ConvexError` message in the
source, plus the storage gateway's blob-deletion failure. -/
inductive Err where
  /-- message: User not found or not logged in. -/
  | userNotFound
  /-- message: You do not have access to this organization. -/
  | noOrgAccess
  /-- message: No access to file. -/
  | noFileAccess
  /-- message: You do not have access to delete this file. -/
  | cannotDelete
  /-- failure of `ctx.storage.delete` -/
  | blobUnavailable
deriving DecidableEq

/-- The role string the admin check compares against. -/
def adminRole : String := "admin"

/-- Check if the user has access to the organization (`hasAccessToOrg`):
`none` when unauthenticated or when no membership entry matches `orgId`;
logging is ignored. -/
def hasAccessToOrg (actor : Option User) (orgId : String) : Option User :=
  match actor with
  | none => none
  | some user =>
    if user.orgIds.any (fun m => m.orgId == orgId) then some user else none

/-- The record `createFile` inserts: fresh id, the given fields, owner set to
the acting user; no `shouldDelete` field. -/
def createdFile (db : DB) (user : User) (nm : String) (fileId : Nat)
    (orgId : String) (ty : FileType) : FileDoc :=
  { _id := db.nextId, name := nm, orgId := orgId, fileId := fileId,
    type := ty, userId := user._id, shouldDelete := none }

/-- Create a new file in the organization (`createFile`). -/
def createFile (actor : Option User) (nm : String) (fileId : Nat)
    (orgId : String) (ty : FileType) (db : DB) : Except Err DB :=
  match hasAccessToOrg actor orgId with
  | none => Except.error Err.noOrgAccess
  | some user =>
    Except.ok { db with
      files := db.files ++ [createdFile db user nm fileId orgId ty],
      nextId := db.nextId + 1 }

/-- Case-insensitive-ready substring test on character lists, the semantics
of JavaScript `String.prototype.includes`. -/
def listContains (l p : List Char) : Bool :=
  p.isPrefixOf l ||
    match l with
    | [] => false
    | _ :: t => listContains t p

/-- `s.includes(pat)` on strings. -/
def strIncludes (s pat : String) : Bool :=
  listContains s.toList pat.toList

/-- `s.toLowerCase()`: lowercase every character. -/
def strLower (s : String) : String :=
  String.mk (s.toList.map Char.toLower)

/-- The favorites of a user inside an organization, as returned by the
`by_userId_orgId_fileId` index queried on the first two fields. -/
def favoritesOf (db : DB) (userId : Nat) (orgId : String) : List FavoriteDoc :=
  db.favorites.filter (fun v => v.userId == userId && v.orgId == orgId)

/-- Get files belonging to an organization (`getFiles`): empty on denied
access, otherwise the org's files run through the query / favorites /
deleted / type filters in source order, each annotated with a resolved URL.
The truthiness tests of the source (`if (args.query)`, `if (args.favorites)`,
`if (args.deletedOnly)`) are modelled exactly: an absent or empty query
string, an absent or false boolean, skip their filters. -/
def getFiles (actor : Option User) (orgId : String) (query : Option String)
    (favorites : Option Bool) (deletedOnly : Option Bool)
    (ty : Option FileType) (resolveUrl : Nat → Option String) (db : DB) :
    List (FileDoc × Option String) :=
  match hasAccessToOrg actor orgId with
  | none => []
  | some user =>
    let files := db.files.filter (fun f => f.orgId == orgId)
    let files :=
      match query with
      | none => files
      | some q =>
        if q == "" then files
        else files.filter (fun f : FileDoc =>
          strIncludes (strLower f.name) (strLower q))
    let files :=
      match favorites with
      | some true =>
        let favs := favoritesOf db user._id orgId
        files.filter (fun f : FileDoc =>
          favs.any (fun v => v.fileId == f._id))
      | _ => files
    let files :=
      match deletedOnly with
      | some true =>
        files.filter (fun f : FileDoc => f.shouldDelete == some true)
      | _ => files.filter (fun f : FileDoc => !(f.shouldDelete == some true))
    let files :=
      match ty with
      | none => files
      | some t => files.filter (fun f : FileDoc => f.type == t)
    files.map (fun f => (f, resolveUrl f.fileId))

/-- The candidate set of the purge sweep: the `by_shouldDelete` index queried
with `eq("shouldDelete", true)`, which matches only records whose field is
strictly `true` (absent or `false` do not match). -/
def purgeCandidates (db : DB) : List FileDoc :=
  db.files.filter (fun f => f.shouldDelete == some true)

/-- Delete all files marked for deletion (`deleteAllFiles`): for each
candidate the blob is deleted first and the record only afterwards, so a
candidate whose blob deletion fails (per the `blobOk` oracle) keeps its
record; any failure surfaces out of the sweep (`Promise.all` rejects and the
handler throws). -/
def deleteAllFiles (blobOk : Nat → Bool) (db : DB) : DB × Option Err :=
  let db2 := { db with
    files := db.files.filter
      (fun f => !(f.shouldDelete == some true && blobOk f.fileId)) }
  if (purgeCandidates db).all (fun f => blobOk f.fileId) then (db2, none)
  else (db2, some Err.blobUnavailable)

/-- The role of the first membership entry of `user` matching `orgId`,
i.e. `user.orgIds.find(o => o.orgId === orgId)?.role`. -/
def roleIn (user : User) (orgId : String) : Option String :=
  (user.orgIds.find? (fun m => m.orgId == orgId)).map Membership.role

/-- The delete/restore authorization predicate of `assertCanDeleteFile`:
owner, or first matching membership's role is admin. -/
def canDelete (user : User) (file : FileDoc) : Bool :=
  file.userId == user._id || roleIn user file.orgId == some adminRole

/-- Check if the user has access to a specific file (`hasAccessToFile`):
the file must exist and the actor must have access to its organization. -/
def hasAccessToFile (actor : Option User) (fileId : Nat) (db : DB) :
    Option (User × FileDoc) :=
  match db.files.find? (fun f => f._id == fileId) with
  | none => none
  | some file =>
    match hasAccessToOrg actor file.orgId with
    | none => none
    | some user => some (user, file)

/-- Effect of `ctx.db.patch(fileId, { shouldDelete: b })` on one record. -/
def patchFile (fileId : Nat) (b : Bool) (f : FileDoc) : FileDoc :=
  if f._id == fileId then { f with shouldDelete := some b } else f

/-- The `ctx.db.patch(fileId, { shouldDelete: b })` write. -/
def setShouldDelete (db : DB) (fileId : Nat) (b : Bool) : DB :=
  { db with files := db.files.map (patchFile fileId b) }

/-- Delete a file by marking it for deletion (`deleteFile`). -/
def deleteFile (actor : Option User) (fileId : Nat) (db : DB) :
    Except Err DB :=
  match hasAccessToFile actor fileId db with
  | none => Except.error Err.noFileAccess
  | some (user, file) =>
    if canDelete user file then Except.ok (setShouldDelete db fileId true)
    else Except.error Err.cannotDelete

/-- Restore a file by removing the deletion mark (`restoreFile`). -/
def restoreFile (actor : Option User) (fileId : Nat) (db : DB) :
    Except Err DB :=
  match hasAccessToFile actor fileId db with
  | none => Except.error Err.noFileAccess
  | some (user, file) =>
    if canDelete user file then Except.ok (setShouldDelete db fileId false)
    else Except.error Err.cannotDelete

/-- Toggle the favorite status of a file (`toggleFavorite`): look up the
first favorite matching the (userId, orgId, fileId) index key; insert a new
favorite when absent, delete the found record when present. -/
def toggleFavorite (actor : Option User) (fileId : Nat) (db : DB) :
    Except Err DB :=
  match hasAccessToFile actor fileId db with
  | none => Except.error Err.noFileAccess
  | some (user, file) =>
    match db.favorites.find? (fun v =>
        v.userId == user._id && v.orgId == file.orgId &&
        v.fileId == file._id) with
    | none =>
      Except.ok { db with
        favorites := db.favorites ++
          [{ _id := db.nextId, fileId := file._id, userId := user._id,
             orgId := file.orgId }],
        nextId := db.nextId + 1 }
    | some fav =>
      Except.ok { db with
        favorites := db.favorites.filter (fun v => !(v._id == fav._id)) }

/-- Get all favorite files for a user in an organization
(`getAllFavorites`): empty on denied access. -/
def getAllFavorites (actor : Option User) (orgId : String) (db : DB) :
    List FavoriteDoc :=
  match hasAccessToOrg actor orgId with
  | none => []
  | some user => favoritesOf db user._id orgId

/-! Spec-side filter predicates, written after the spec's words ("filters
compose by logical AND"), to be compared with `getFiles`. -/

/-- Spec filter (a): case-insensitive substring match on name when a query
string is given. -/
def specMatchQuery (query : Option String) (f : FileDoc) : Bool :=
  match query with
  | none => true
  | some q => strIncludes (strLower f.name) (strLower q)

/-- Spec filter (b): restriction to the actor's favorited files when
`favorites = true`. -/
def specMatchFavorites (db : DB) (userId : Nat) (orgId : String)
    (favorites : Option Bool) (f : FileDoc) : Bool :=
  match favorites with
  | some true => (favoritesOf db userId orgId).any (fun v => v.fileId == f._id)
  | _ => true

/-- Spec filter (c): the file is in the deleted view iff `deletedOnly` is
true (defaulting to false). -/
def specMatchDeleted (deletedOnly : Option Bool) (f : FileDoc) : Bool :=
  match deletedOnly with
  | some true => f.shouldDelete == some true
  | _ => !(f.shouldDelete == some true)

/-- Spec filter (d): exact type match when given. -/
def specMatchType (ty : Option FileType) (f : FileDoc) : Bool :=
  match ty with
  | none => true
  | some t => f.type == t

/-- Membership of a favorite record in one (userId, fileId) pair. -/
def favMatches (userId fileId : Nat) (v : FavoriteDoc) : Bool :=
  v.userId == userId && v.fileId == fileId

/-- Number of favorite records of one (userId, fileId) pair. -/
def favPairCount (db : DB) (userId fileId : Nat) : Nat :=
  db.favorites.countP (favMatches userId fileId)

/-- At most one favorite record per (userId, fileId) pair. -/
def UniqueFavs (db : DB) : Prop :=
  db.favorites.Pairwise (fun a b => ¬(a.userId = b.userId ∧ a.fileId = b.fileId))

instance (db : DB) : Decidable (UniqueFavs db) := by
  unfold UniqueFavs; infer_instance

/-- The state invariant every reachable store satisfies: ids of files and the
file references of favorites are below the allocator, file ids are distinct,
favorites are unique per (userId, fileId), and each favorite of an existing
file carries that file's organization. -/
def Inv (db : DB) : Prop :=
  (∀ f ∈ db.files, f._id < db.nextId) ∧
  (∀ v ∈ db.favorites, v.fileId < db.nextId) ∧
  db.files.Pairwise (fun a b => a._id ≠ b._id) ∧
  UniqueFavs db ∧
  (∀ v ∈ db.favorites, ∀ f ∈ db.files, v.fileId = f._id → v.orgId = f.orgId)

instance (db : DB) : Decidable (Inv db) := by
  unfold Inv; infer_instance

/-- One call of a state-changing operation, with its arguments. -/
inductive Op where
  | create (actor : Option User) (nm : String) (fileId : Nat) (orgId : String)
      (ty : FileType)
  | del (actor : Option User) (fileId : Nat)
  | restore (actor : Option User) (fileId : Nat)
  | toggle (actor : Option User) (fileId : Nat)
  | purge (blobOk : Nat → Bool)

/-- The store after one operation: a failed mutation leaves the store
unchanged, the purge sweep always leaves its (possibly partial) result. -/
def applyOp (db : DB) (op : Op) : DB :=
  match op with
  | Op.create a nm s o t =>
    match createFile a nm s o t db with
    | Except.ok d => d
    | Except.error _ => db
  | Op.del a f =>
    match deleteFile a f db with
    | Except.ok d => d
    | Except.error _ => db
  | Op.restore a f =>
    match restoreFile a f db with
    | Except.ok d => d
    | Except.error _ => db
  | Op.toggle a f =>
    match toggleFavorite a f db with
    | Except.ok d => d
    | Except.error _ => db
  | Op.purge blobOk => (deleteAllFiles blobOk db).1

/-! Claim C2. -/

/-- C2, counterexample: with a member actor, `createFile` succeeds but the
inserted record's `shouldDelete` field is absent (`none`), not `false` —
refuting "inserts a File record whose shouldDelete field is false". -/
theorem C2_counterexample :
    createFile (some ⟨1, [⟨"orgA", "member"⟩]⟩) "report" 7 "orgA"
        FileType.image ⟨[], [], 0⟩ =
      Except.ok ⟨[⟨0, "report", "orgA", 7, FileType.image, 1, none⟩], [], 1⟩ ∧
    (⟨0, "report", "orgA", 7, FileType.image, 1, none⟩ : FileDoc).shouldDelete ≠
      some false := by
  decide

/-- C2 (amended): for every actor with a membership in the target
organization, `createFile` inserts a File record with no `shouldDelete`
field (absent, hence treated as live) and owner set to the actor's id; for
every actor without such a membership it fails with the forbidden error and
inserts nothing. -/
theorem C2_createFile_amended (actor : Option User) (nm : String) (ref : Nat)
    (orgId : String) (ty : FileType) (db : DB) :
    (∀ u, hasAccessToOrg actor orgId = some u →
      createFile actor nm ref orgId ty db =
        Except.ok { db with
          files := db.files ++ [createdFile db u nm ref orgId ty],
          nextId := db.nextId + 1 } ∧
      (createdFile db u nm ref orgId ty).shouldDelete = none ∧
      (createdFile db u nm ref orgId ty).userId = u._id) ∧
    (hasAccessToOrg actor orgId = none →
      createFile actor nm ref orgId ty db = Except.error Err.noOrgAccess) := by
  constructor
  · intro u hu
    simp [createFile, hu, createdFile]
  · intro hno
    simp [createFile, hno]

/-- C2 (amended), witness at a concrete member and a concrete outsider. -/
theorem C2_createFile_amended_witness :
    createFile (some ⟨2, [⟨"O", "member"⟩]⟩) "a" 9 "O" FileType.csv
        ⟨[], [], 0⟩ =
      Except.ok ⟨[⟨0, "a", "O", 9, FileType.csv, 2, none⟩], [], 1⟩ ∧
    createFile none "a" 9 "O" FileType.csv ⟨[], [], 0⟩ =
      Except.error Err.noOrgAccess := by
  refine ⟨?_, ?_⟩
  · exact ((C2_createFile_amended (some ⟨2, [⟨"O", "member"⟩]⟩) "a" 9 "O"
      FileType.csv ⟨[], [], 0⟩).1 ⟨2, [⟨"O", "member"⟩]⟩ (by decide)).1
  · exact (C2_createFile_amended none "a" 9 "O" FileType.csv
      ⟨[], [], 0⟩).2 (by decide)

/-! Claim C3. -/

/-- C3, counterexample: the actor with id 1 is the owner of file 10
(`userId = 1`), yet `deleteFile` fails because the actor holds no membership
in the file's organization — refuting "succeeds if and only if A.id equals
F's owner userId, or A holds the admin role in F's organization". -/
theorem C3_counterexample :
    (⟨10, "f", "O", 5, FileType.image, 1, none⟩ : FileDoc).userId =
      (⟨1, []⟩ : User)._id ∧
    deleteFile (some ⟨1, []⟩) 10
        ⟨[⟨10, "f", "O", 5, FileType.image, 1, none⟩], [], 11⟩ =
      Except.error Err.noFileAccess := by
  decide

/-- C3 (amended): for an existing file F, `deleteFile(A, F)` succeeds iff A
has a membership in F's organization AND (A.id equals F's owner userId, or
the role of A's membership entry for F's organization is admin); a
non-member (even the owner) or unauthenticated actor fails with the
no-access error, and a member who is neither owner nor admin fails with the
cannot-delete error. -/
theorem C3_deleteFile_amended (actor : Option User) (fid : Nat) (db : DB)
    (f : FileDoc) (hf : db.files.find? (fun g => g._id == fid) = some f) :
    ((∃ d, deleteFile actor fid db = Except.ok d) ↔
      ∃ u, hasAccessToOrg actor f.orgId = some u ∧
        (f.userId = u._id ∨ roleIn u f.orgId = some adminRole)) ∧
    (hasAccessToOrg actor f.orgId = none →
      deleteFile actor fid db = Except.error Err.noFileAccess) ∧
    (∀ u, hasAccessToOrg actor f.orgId = some u → canDelete u f = false →
      deleteFile actor fid db = Except.error Err.cannotDelete) := by
  refine ⟨?_, ?_, ?_⟩
  · cases h : hasAccessToOrg actor f.orgId with
    | none => simp [deleteFile, hasAccessToFile, hf, h]
    | some u =>
      cases hcd : canDelete u f with
      | false =>
        simp only [deleteFile, hasAccessToFile, hf, h, hcd]
        constructor
        · rintro ⟨d, hd⟩; simp at hd
        · rintro ⟨u2, hu2, hcond⟩
          have h2 : u = u2 := by injection hu2
          subst h2
          have : canDelete u f = true := by
            simp [canDelete, Bool.or_eq_true, beq_iff_eq]
            exact hcond
          rw [this] at hcd
          cases hcd
      | true =>
        simp only [deleteFile, hasAccessToFile, hf, h, hcd]
        constructor
        · intro _
          refine ⟨u, rfl, ?_⟩
          have := hcd
          simp [canDelete, Bool.or_eq_true, beq_iff_eq] at this
          exact this
        · intro _
          exact ⟨setShouldDelete db fid true, rfl⟩
  · intro hno
    simp [deleteFile, hasAccessToFile, hf, hno]
  · intro u hu hcd
    simp [deleteFile, hasAccessToFile, hf, hu, hcd]

/-- C3 (amended), witness: an admin who is not the owner succeeds; an
unauthenticated actor gets the no-access error; a plain member who is not
the owner gets the cannot-delete error. -/
theorem C3_deleteFile_amended_witness :
    (∃ d, deleteFile (some ⟨2, [⟨"O", "admin"⟩]⟩) 10
      ⟨[⟨10, "f", "O", 5, FileType.image, 1, none⟩], [], 11⟩ =
        Except.ok d) ∧
    deleteFile none 10
        ⟨[⟨10, "f", "O", 5, FileType.image, 1, none⟩], [], 11⟩ =
      Except.error Err.noFileAccess ∧
    deleteFile (some ⟨3, [⟨"O", "member"⟩]⟩) 10
        ⟨[⟨10, "f", "O", 5, FileType.image, 1, none⟩], [], 11⟩ =
      Except.error Err.cannotDelete := by
  refine ⟨?_, ?_, ?_⟩
  · exact (C3_deleteFile_amended (some ⟨2, [⟨"O", "admin"⟩]⟩) 10
      ⟨[⟨10, "f", "O", 5, FileType.image, 1, none⟩], [], 11⟩
      ⟨10, "f", "O", 5, FileType.image, 1, none⟩ (by decide)).1.mpr
      ⟨⟨2, [⟨"O", "admin"⟩]⟩, by decide, Or.inr (by decide)⟩
  · exact (C3_deleteFile_amended none 10
      ⟨[⟨10, "f", "O", 5, FileType.image, 1, none⟩], [], 11⟩
      ⟨10, "f", "O", 5, FileType.image, 1, none⟩ (by decide)).2.1 (by decide)
  · exact (C3_deleteFile_amended (some ⟨3, [⟨"O", "member"⟩]⟩) 10
      ⟨[⟨10, "f", "O", 5, FileType.image, 1, none⟩], [], 11⟩
      ⟨10, "f", "O", 5, FileType.image, 1, none⟩ (by decide)).2.2
      ⟨3, [⟨"O", "member"⟩]⟩ (by decide) (by decide)

/-! Claim C4. -/

/-- C4, counterexample: a missing file and an existing file in an
organization the actor does not belong to produce the very same failure
(`noFileAccess`, the source's single "No access to file." error), for both
`deleteFile` and `restoreFile` — refuting the claimed distinct `NotFound`
outcome for missing files. -/
theorem C4_counterexample :
    deleteFile (some ⟨1, [⟨"B", "member"⟩]⟩) 10 ⟨[], [], 0⟩ =
      Except.error Err.noFileAccess ∧
    deleteFile (some ⟨1, [⟨"B", "member"⟩]⟩) 10
        ⟨[⟨10, "f", "O", 5, FileType.image, 2, none⟩], [], 11⟩ =
      Except.error Err.noFileAccess ∧
    restoreFile (some ⟨1, [⟨"B", "member"⟩]⟩) 10 ⟨[], [], 0⟩ =
      Except.error Err.noFileAccess ∧
    restoreFile (some ⟨1, [⟨"B", "member"⟩]⟩) 10
        ⟨[⟨10, "f", "O", 5, FileType.image, 2, none⟩], [], 11⟩ =
      Except.error Err.noFileAccess := by
  decide

/-- C4 (amended): `deleteFile` and `restoreFile` fail with one and the same
no-access error both when the fileId references no existing file and when
the file exists but the actor lacks membership in its organization (no
distinct NotFound outcome); only an accessible file the actor may not
mutate produces the distinct cannot-delete error. -/
theorem C4_errors_amended (actor : Option User) (fid : Nat) (db : DB) :
    (db.files.find? (fun g => g._id == fid) = none →
      deleteFile actor fid db = Except.error Err.noFileAccess ∧
      restoreFile actor fid db = Except.error Err.noFileAccess) ∧
    (∀ f, db.files.find? (fun g => g._id == fid) = some f →
      hasAccessToOrg actor f.orgId = none →
      deleteFile actor fid db = Except.error Err.noFileAccess ∧
      restoreFile actor fid db = Except.error Err.noFileAccess) ∧
    (∀ f u, db.files.find? (fun g => g._id == fid) = some f →
      hasAccessToOrg actor f.orgId = some u → canDelete u f = false →
      deleteFile actor fid db = Except.error Err.cannotDelete ∧
      restoreFile actor fid db = Except.error Err.cannotDelete) := by
  refine ⟨?_, ?_, ?_⟩
  · intro hnone
    constructor <;> simp [deleteFile, restoreFile, hasAccessToFile, hnone]
  · intro f hf hno
    constructor <;> simp [deleteFile, restoreFile, hasAccessToFile, hf, hno]
  · intro f u hf hu hcd
    constructor <;>
      simp [deleteFile, restoreFile, hasAccessToFile, hf, hu, hcd]

/-- C4 (amended), witness at a missing file, an inaccessible file, and an
accessible file of another owner. -/
theorem C4_errors_amended_witness :
    deleteFile (some ⟨1, [⟨"B", "member"⟩]⟩) 99 ⟨[], [], 0⟩ =
      Except.error Err.noFileAccess ∧
    deleteFile (some ⟨1, [⟨"B", "member"⟩]⟩) 10
        ⟨[⟨10, "g", "O", 5, FileType.pdf, 2, none⟩], [], 11⟩ =
      Except.error Err.noFileAccess ∧
    restoreFile (some ⟨1, [⟨"O", "member"⟩]⟩) 10
        ⟨[⟨10, "g", "O", 5, FileType.pdf, 2, none⟩], [], 11⟩ =
      Except.error Err.cannotDelete := by
  refine ⟨?_, ?_, ?_⟩
  · exact ((C4_errors_amended (some ⟨1, [⟨"B", "member"⟩]⟩) 99
      ⟨[], [], 0⟩).1 (by decide)).1
  · exact ((C4_errors_amended (some ⟨1, [⟨"B", "member"⟩]⟩) 10
      ⟨[⟨10, "g", "O", 5, FileType.pdf, 2, none⟩], [], 11⟩).2.1
      ⟨10, "g", "O", 5, FileType.pdf, 2, none⟩ (by decide) (by decide)).1
  · exact ((C4_errors_amended (some ⟨1, [⟨"O", "member"⟩]⟩) 10
      ⟨[⟨10, "g", "O", 5, FileType.pdf, 2, none⟩], [], 11⟩).2.2
      ⟨10, "g", "O", 5, FileType.pdf, 2, none⟩ ⟨1, [⟨"O", "member"⟩]⟩
      (by decide) (by decide) (by decide)).2

/-! Claim C8. -/

/-- C8: an actor without membership in the requested organization (including
an unauthenticated one) gets an empty list from `getFiles` and
`getAllFavorites` rather than an error, while `createFile` and — for files
of that organization — `deleteFile`, `restoreFile` and `toggleFavorite`
surface explicit errors. -/
theorem C8_reads_empty_writes_fail (actor : Option User) (orgId : String)
    (q : Option String) (fav del : Option Bool) (ty : Option FileType)
    (resolveUrl : Nat → Option String) (db : DB)
    (hNo : hasAccessToOrg actor orgId = none) :
    getFiles actor orgId q fav del ty resolveUrl db = [] ∧
    getAllFavorites actor orgId db = [] ∧
    (∀ nm ref t, createFile actor nm ref orgId t db =
      Except.error Err.noOrgAccess) ∧
    (∀ fid f, db.files.find? (fun g => g._id == fid) = some f →
      f.orgId = orgId →
      deleteFile actor fid db = Except.error Err.noFileAccess ∧
      restoreFile actor fid db = Except.error Err.noFileAccess ∧
      toggleFavorite actor fid db = Except.error Err.noFileAccess) := by
  refine ⟨?_, ?_, ?_, ?_⟩
  · simp [getFiles, hNo]
  · simp [getAllFavorites, hNo]
  · intro nm ref t
    simp [createFile, hNo]
  · intro fid f hf horg
    rw [← horg] at hNo
    refine ⟨?_, ?_, ?_⟩ <;>
      simp [deleteFile, restoreFile, toggleFavorite, hasAccessToFile, hf, hNo]

/-- C8, witness at an unauthenticated actor and a one-file store. -/
theorem C8_reads_empty_writes_fail_witness :
    getFiles none "O" none none none none (fun _ => none)
        ⟨[⟨0, "f", "O", 5, FileType.image, 1, none⟩], [], 1⟩ = [] ∧
    getAllFavorites none "O"
        ⟨[⟨0, "f", "O", 5, FileType.image, 1, none⟩], [], 1⟩ = [] ∧
    createFile none "x" 7 "O" FileType.image
        ⟨[⟨0, "f", "O", 5, FileType.image, 1, none⟩], [], 1⟩ =
      Except.error Err.noOrgAccess ∧
    toggleFavorite none 0
        ⟨[⟨0, "f", "O", 5, FileType.image, 1, none⟩], [], 1⟩ =
      Except.error Err.noFileAccess := by
  have h := C8_reads_empty_writes_fail none "O" none none none none
    (fun _ => none) ⟨[⟨0, "f", "O", 5, FileType.image, 1, none⟩], [], 1⟩
    (by decide)
  exact ⟨h.1, h.2.1, h.2.2.1 "x" 7 FileType.image,
    (h.2.2.2 0 ⟨0, "f", "O", 5, FileType.image, 1, none⟩ (by decide)
      (by decide)).2.2⟩

/-! Claim C1. -/

/-- C1, evaluation at the failing input: two flagged files; the blob delete
of the file with storage ref 5 fails while ref 6 succeeds.  The sweep
surfaces a hard failure and the failing item's File record is NOT deleted
(only the other file's record is removed): `ctx.storage.delete` is awaited
before `ctx.db.delete` with no error handling, so its rejection skips the
record deletion and rejects the whole `Promise.all`. -/
theorem C1_purge_failure_eval :
    deleteAllFiles (fun r => r == 6)
        ⟨[⟨0, "a", "O", 5, FileType.image, 1, some true⟩,
          ⟨1, "b", "O", 6, FileType.image, 1, some true⟩], [], 2⟩ =
      (⟨[⟨0, "a", "O", 5, FileType.image, 1, some true⟩], [], 2⟩,
        some Err.blobUnavailable) := by
  decide

/-! Helper lemmas about `patchFile` and record lookup. -/

theorem patchFile_id (fid : Nat) (b : Bool) (f : FileDoc) :
    (patchFile fid b f)._id = f._id := by
  by_cases h : f._id == fid <;> simp [patchFile, h]

theorem patchFile_orgId (fid : Nat) (b : Bool) (f : FileDoc) :
    (patchFile fid b f).orgId = f.orgId := by
  by_cases h : f._id == fid <;> simp [patchFile, h]

theorem patchFile_userId (fid : Nat) (b : Bool) (f : FileDoc) :
    (patchFile fid b f).userId = f.userId := by
  by_cases h : f._id == fid <;> simp [patchFile, h]

theorem patchFile_idem (fid : Nat) (b : Bool) (f : FileDoc) :
    patchFile fid b (patchFile fid b f) = patchFile fid b f := by
  by_cases h : f._id == fid <;> simp [patchFile, h]

theorem canDelete_patchFile (u : User) (fid : Nat) (b : Bool) (f : FileDoc) :
    canDelete u (patchFile fid b f) = canDelete u f := by
  simp [canDelete, patchFile_userId, patchFile_orgId]

theorem find?_map_patchFile (fid : Nat) (b : Bool) (j : Nat)
    (l : List FileDoc) :
    (l.map (patchFile fid b)).find? (fun g => g._id == j) =
      Option.map (patchFile fid b) (l.find? (fun g => g._id == j)) := by
  rw [List.find?_map,
    show ((fun g : FileDoc => g._id == j) ∘ patchFile fid b) =
      (fun g : FileDoc => g._id == j) from
      funext fun x => by simp [Function.comp, patchFile_id]]

theorem setShouldDelete_idem (db : DB) (fid : Nat) (b : Bool) :
    setShouldDelete (setShouldDelete db fid b) fid b =
      setShouldDelete db fid b := by
  show DB.mk ((db.files.map (patchFile fid b)).map (patchFile fid b))
      db.favorites db.nextId =
    DB.mk (db.files.map (patchFile fid b)) db.favorites db.nextId
  rw [List.map_map,
    List.map_congr_left (fun a _ => by
      show (patchFile fid b ∘ patchFile fid b) a = patchFile fid b a
      simp [Function.comp, patchFile_idem])]

/-! Claim C6. -/

/-- C6: `deleteFile` and `restoreFile` are idempotent — after a successful
call, repeating the same call succeeds and returns the very same store (a
no-op), and the target's `shouldDelete` is `true` after delete, `false`
after restore. -/
theorem C6_idempotent (actor : Option User) (fid : Nat) (db db1 db2 : DB) :
    (deleteFile actor fid db = Except.ok db1 →
      deleteFile actor fid db1 = Except.ok db1 ∧
      ∀ f ∈ db1.files, f._id = fid → f.shouldDelete = some true) ∧
    (restoreFile actor fid db = Except.ok db2 →
      restoreFile actor fid db2 = Except.ok db2 ∧
      ∀ f ∈ db2.files, f._id = fid → f.shouldDelete = some false) := by
  constructor
  · intro h
    rcases hfind : db.files.find? (fun g => g._id == fid) with _ | f
    · simp [deleteFile, hasAccessToFile, hfind] at h
    rcases horg : hasAccessToOrg actor f.orgId with _ | u
    · simp [deleteFile, hasAccessToFile, hfind, horg] at h
    rcases hcd : canDelete u f with _ | _
    · simp [deleteFile, hasAccessToFile, hfind, horg, hcd] at h
    have hdb1 : db1 = setShouldDelete db fid true := by
      simp [deleteFile, hasAccessToFile, hfind, horg, hcd] at h
      exact h.symm
    subst hdb1
    constructor
    · have hfind1 : (setShouldDelete db fid true).files.find?
          (fun g => g._id == fid) = some (patchFile fid true f) := by
        show ((db.files.map (patchFile fid true)).find?
          (fun g => g._id == fid)) = some (patchFile fid true f)
        rw [find?_map_patchFile, hfind]
        rfl
      have horg1 : hasAccessToOrg actor (patchFile fid true f).orgId =
          some u := by rw [patchFile_orgId]; exact horg
      have hcd1 : canDelete u (patchFile fid true f) = true := by
        rw [canDelete_patchFile]; exact hcd
      simp [deleteFile, hasAccessToFile, hfind1, horg1, hcd1,
        setShouldDelete_idem]
    · intro g hg hgid
      rcases List.mem_map.mp hg with ⟨x, _, hx⟩
      subst hx
      have : x._id = fid := by rw [← patchFile_id fid true x]; exact hgid
      simp [patchFile, this]
  · intro h
    rcases hfind : db.files.find? (fun g => g._id == fid) with _ | f
    · simp [restoreFile, hasAccessToFile, hfind] at h
    rcases horg : hasAccessToOrg actor f.orgId with _ | u
    · simp [restoreFile, hasAccessToFile, hfind, horg] at h
    rcases hcd : canDelete u f with _ | _
    · simp [restoreFile, hasAccessToFile, hfind, horg, hcd] at h
    have hdb2 : db2 = setShouldDelete db fid false := by
      simp [restoreFile, hasAccessToFile, hfind, horg, hcd] at h
      exact h.symm
    subst hdb2
    constructor
    · have hfind1 : (setShouldDelete db fid false).files.find?
          (fun g => g._id == fid) = some (patchFile fid false f) := by
        show ((db.files.map (patchFile fid false)).find?
          (fun g => g._id == fid)) = some (patchFile fid false f)
        rw [find?_map_patchFile, hfind]
        rfl
      have horg1 : hasAccessToOrg actor (patchFile fid false f).orgId =
          some u := by rw [patchFile_orgId]; exact horg
      have hcd1 : canDelete u (patchFile fid false f) = true := by
        rw [canDelete_patchFile]; exact hcd
      simp [restoreFile, hasAccessToFile, hfind1, horg1, hcd1,
        setShouldDelete_idem]
    · intro g hg hgid
      rcases List.mem_map.mp hg with ⟨x, _, hx⟩
      subst hx
      have : x._id = fid := by rw [← patchFile_id fid false x]; exact hgid
      simp [patchFile, this]

/-- C6, witness: the owner deletes their already-deleted file and restores
an already-live file; both second calls are no-op successes. -/
theorem C6_idempotent_witness :
    deleteFile (some ⟨1, [⟨"O", "member"⟩]⟩) 10
        ⟨[⟨10, "f", "O", 5, FileType.image, 1, some true⟩], [], 11⟩ =
      Except.ok ⟨[⟨10, "f", "O", 5, FileType.image, 1, some true⟩], [], 11⟩ ∧
    restoreFile (some ⟨1, [⟨"O", "member"⟩]⟩) 10
        ⟨[⟨10, "f", "O", 5, FileType.image, 1, some false⟩], [], 11⟩ =
      Except.ok ⟨[⟨10, "f", "O", 5, FileType.image, 1, some false⟩], [],
        11⟩ := by
  constructor
  · exact ((C6_idempotent (some ⟨1, [⟨"O", "member"⟩]⟩) 10
      ⟨[⟨10, "f", "O", 5, FileType.image, 1, none⟩], [], 11⟩
      ⟨[⟨10, "f", "O", 5, FileType.image, 1, some true⟩], [], 11⟩
      ⟨[], [], 0⟩).1 (by decide)).1
  · exact ((C6_idempotent (some ⟨1, [⟨"O", "member"⟩]⟩) 10
      ⟨[⟨10, "f", "O", 5, FileType.image, 1, none⟩], [], 11⟩
      ⟨[], [], 0⟩
      ⟨[⟨10, "f", "O", 5, FileType.image, 1, some false⟩], [], 11⟩).2
      (by decide)).1

/-! Claim C10. -/

theorem deleteAllFiles_fst (blobOk : Nat → Bool) (db : DB) :
    (deleteAllFiles blobOk db).1 = { db with
      files := db.files.filter
        (fun f => !(f.shouldDelete == some true && blobOk f.fileId)) } := by
  unfold deleteAllFiles
  split <;> rfl

/-- C10: a file freshly inserted by `createFile` carries no `shouldDelete`
field at all (`none`, not `some false`); it is returned by the default
(live) `getFiles` view, it is never a purge candidate of `deleteAllFiles`
(whose index query matches only `shouldDelete` strictly equal to `true`),
and it survives any purge sweep. -/
theorem C10_fresh_file (actor : Option User) (u : User) (nm : String)
    (ref : Nat) (orgId : String) (ty : FileType) (db db1 : DB)
    (resolveUrl : Nat → Option String) (blobOk : Nat → Bool)
    (hAcc : hasAccessToOrg actor orgId = some u)
    (hCreate : createFile actor nm ref orgId ty db = Except.ok db1) :
    (createdFile db u nm ref orgId ty).shouldDelete = none ∧
    (createdFile db u nm ref orgId ty, resolveUrl ref) ∈
      getFiles actor orgId none none none none resolveUrl db1 ∧
    createdFile db u nm ref orgId ty ∉ purgeCandidates db1 ∧
    createdFile db u nm ref orgId ty ∈ (deleteAllFiles blobOk db1).1.files := by
  have hdb1 : db1 = { db with
      files := db.files ++ [createdFile db u nm ref orgId ty],
      nextId := db.nextId + 1 } := by
    simp [createFile, hAcc] at hCreate
    exact hCreate.symm
  subst hdb1
  have hmem : createdFile db u nm ref orgId ty ∈
      db.files ++ [createdFile db u nm ref orgId ty] :=
    List.mem_append_right _ (List.mem_singleton.mpr rfl)
  refine ⟨rfl, ?_, ?_, ?_⟩
  · simp only [getFiles, hAcc]
    refine List.mem_map.mpr ⟨createdFile db u nm ref orgId ty, ?_, rfl⟩
    refine List.mem_filter.mpr ⟨List.mem_filter.mpr ⟨hmem, ?_⟩, ?_⟩
    · simp [createdFile]
    · simp [createdFile]
  · intro hc
    have := (List.mem_filter.mp hc).2
    simp [createdFile] at this
  · rw [deleteAllFiles_fst]
    refine List.mem_filter.mpr ⟨hmem, ?_⟩
    simp [createdFile]

/-- C10, witness: a concrete member creates a file in a one-file store; the
new record (id 1, `shouldDelete` absent) is in the live view, is no purge
candidate, and survives a purge whose blob deletions all fail. -/
theorem C10_fresh_file_witness :
    (⟨1, "n", "O", 9, FileType.pdf, 2, none⟩ : FileDoc).shouldDelete = none ∧
    ((⟨1, "n", "O", 9, FileType.pdf, 2, none⟩ : FileDoc), (none : Option String)) ∈
      getFiles (some ⟨2, [⟨"O", "member"⟩]⟩) "O" none none none none
        (fun _ => none)
        ⟨[⟨0, "f", "O", 5, FileType.image, 2, some true⟩,
          ⟨1, "n", "O", 9, FileType.pdf, 2, none⟩], [], 2⟩ ∧
    (⟨1, "n", "O", 9, FileType.pdf, 2, none⟩ : FileDoc) ∉ purgeCandidates
      ⟨[⟨0, "f", "O", 5, FileType.image, 2, some true⟩,
        ⟨1, "n", "O", 9, FileType.pdf, 2, none⟩], [], 2⟩ ∧
    (⟨1, "n", "O", 9, FileType.pdf, 2, none⟩ : FileDoc) ∈
      (deleteAllFiles (fun _ => false)
        ⟨[⟨0, "f", "O", 5, FileType.image, 2, some true⟩,
          ⟨1, "n", "O", 9, FileType.pdf, 2, none⟩], [], 2⟩).1.files := by
  exact C10_fresh_file (some ⟨2, [⟨"O", "member"⟩]⟩) ⟨2, [⟨"O", "member"⟩]⟩
    "n" 9 "O" FileType.pdf
    ⟨[⟨0, "f", "O", 5, FileType.image, 2, some true⟩], [], 1⟩
    ⟨[⟨0, "f", "O", 5, FileType.image, 2, some true⟩,
      ⟨1, "n", "O", 9, FileType.pdf, 2, none⟩], [], 2⟩
    (fun _ => none) (fun _ => false) (by decide) (by decide)

/-! Claim C5. -/

theorem listContains_nil_right (l : List Char) : listContains l [] = true := by
  cases l <;> simp [listContains, List.isPrefixOf]

theorem strIncludes_empty (s : String) : strIncludes s "" = true := by
  simpa [strIncludes] using listContains_nil_right s.toList

theorem strLower_empty : strLower "" = "" := by decide

/-- `getFiles`, on authorized access, equals the organization's files run
through the logical AND of the four spec filters, each file annotated with
its resolved URL. -/
theorem getFiles_spec (actor : Option User) (orgId : String)
    (q : Option String) (fav del : Option Bool) (ty : Option FileType)
    (resolveUrl : Nat → Option String) (db : DB) (u : User)
    (hAcc : hasAccessToOrg actor orgId = some u) :
    getFiles actor orgId q fav del ty resolveUrl db =
      ((db.files.filter (fun f => f.orgId == orgId)).filter (fun f =>
        specMatchQuery q f && specMatchFavorites db u._id orgId fav f &&
        specMatchDeleted del f && specMatchType ty f)).map
        (fun f => (f, resolveUrl f.fileId)) := by
  simp only [getFiles, hAcc]
  congr 1
  rcases q with _ | qs
  · rcases fav with _ | (_ | _) <;>
      rcases del with _ | (_ | _) <;>
      rcases ty with _ | t <;>
      simp [specMatchQuery, specMatchFavorites, specMatchDeleted,
        specMatchType, List.filter_filter, Bool.and_comm, Bool.and_left_comm,
        Bool.and_assoc]
  · by_cases hqs : qs = ""
    · subst hqs
      rcases fav with _ | (_ | _) <;>
        rcases del with _ | (_ | _) <;>
        rcases ty with _ | t <;>
        simp [specMatchQuery, specMatchFavorites, specMatchDeleted,
          specMatchType, strLower_empty, strIncludes_empty,
          List.filter_filter,
          Bool.and_comm, Bool.and_left_comm, Bool.and_assoc]
    · rcases fav with _ | (_ | _) <;>
        rcases del with _ | (_ | _) <;>
        rcases ty with _ | t <;>
        simp [specMatchQuery, specMatchFavorites, specMatchDeleted,
          specMatchType, hqs, List.filter_filter, Bool.and_comm,
          Bool.and_left_comm, Bool.and_assoc]

/-- C5: for every authorized call, `getFiles` returns the organization's
files filtered by the logical AND of (a) case-insensitive substring match on
name, (b) restriction to the actor's favorites, (c) `shouldDelete`
matching `deletedOnly` (default false), (d) exact type match — and, for a
fixed organization, the `deletedOnly = true` and `deletedOnly = false`
views partition the organization's files with no overlap and no gaps. -/
theorem C5_getFiles_filters (actor : Option User) (orgId : String)
    (q : Option String) (fav del : Option Bool) (ty : Option FileType)
    (resolveUrl : Nat → Option String) (db : DB) (u : User)
    (hAcc : hasAccessToOrg actor orgId = some u) :
    getFiles actor orgId q fav del ty resolveUrl db =
      ((db.files.filter (fun f => f.orgId == orgId)).filter (fun f =>
        specMatchQuery q f && specMatchFavorites db u._id orgId fav f &&
        specMatchDeleted del f && specMatchType ty f)).map
        (fun f => (f, resolveUrl f.fileId)) ∧
    (∀ f ∈ db.files, f.orgId = orgId →
      ((f, resolveUrl f.fileId) ∈
          getFiles actor orgId none none (some false) none resolveUrl db ↔
        ¬(f, resolveUrl f.fileId) ∈
          getFiles actor orgId none none (some true) none resolveUrl db)) := by
  refine ⟨getFiles_spec actor orgId q fav del ty resolveUrl db u hAcc, ?_⟩
  intro f hf horg
  rw [getFiles_spec actor orgId none none (some false) none resolveUrl db u
      hAcc,
    getFiles_spec actor orgId none none (some true) none resolveUrl db u
      hAcc]
  have hmm : ∀ dl : Option Bool,
      ((f, resolveUrl f.fileId) ∈
        ((db.files.filter (fun g => g.orgId == orgId)).filter (fun g =>
          specMatchQuery none g && specMatchFavorites db u._id orgId none g &&
          specMatchDeleted dl g && specMatchType none g)).map
          (fun g => (g, resolveUrl g.fileId))) ↔
        specMatchDeleted dl f = true := by
    intro dl
    constructor
    · intro hm
      rcases List.mem_map.mp hm with ⟨x, hxmem, hxe⟩
      have hxf : x = f := congrArg Prod.fst hxe
      subst hxf
      have hcond := (List.mem_filter.mp hxmem).2
      simp only [Bool.and_eq_true] at hcond
      exact hcond.1.2
    · intro hd
      refine List.mem_map.mpr ⟨f, List.mem_filter.mpr
        ⟨List.mem_filter.mpr ⟨hf, by simp [horg]⟩, ?_⟩, rfl⟩
      simp [specMatchQuery, specMatchFavorites, specMatchType, hd]
  rw [hmm (some false), hmm (some true)]
  simp [specMatchDeleted]

/-- C5, witness: a two-file store (one live, one soft-deleted); the query
filter instance and the live/deleted partition at the live file. -/
theorem C5_getFiles_filters_witness :
    getFiles (some ⟨1, [⟨"O", "member"⟩]⟩) "O" (some "rep") none none none
        (fun _ => none)
        ⟨[⟨0, "Report A", "O", 5, FileType.image, 1, none⟩,
          ⟨1, "b", "O", 6, FileType.csv, 1, some true⟩], [], 2⟩ =
      [(⟨0, "Report A", "O", 5, FileType.image, 1, none⟩, none)] ∧
    (((⟨0, "Report A", "O", 5, FileType.image, 1, none⟩ : FileDoc),
        (none : Option String)) ∈
      getFiles (some ⟨1, [⟨"O", "member"⟩]⟩) "O" none none (some false) none
        (fun _ => none)
        ⟨[⟨0, "Report A", "O", 5, FileType.image, 1, none⟩,
          ⟨1, "b", "O", 6, FileType.csv, 1, some true⟩], [], 2⟩ ↔
      ¬((⟨0, "Report A", "O", 5, FileType.image, 1, none⟩ : FileDoc),
        (none : Option String)) ∈
      getFiles (some ⟨1, [⟨"O", "member"⟩]⟩) "O" none none (some true) none
        (fun _ => none)
        ⟨[⟨0, "Report A", "O", 5, FileType.image, 1, none⟩,
          ⟨1, "b", "O", 6, FileType.csv, 1, some true⟩], [], 2⟩) := by
  have h := C5_getFiles_filters (some ⟨1, [⟨"O", "member"⟩]⟩) "O"
    (some "rep") none none none (fun _ => none)
    ⟨[⟨0, "Report A", "O", 5, FileType.image, 1, none⟩,
      ⟨1, "b", "O", 6, FileType.csv, 1, some true⟩], [], 2⟩
    ⟨1, [⟨"O", "member"⟩]⟩ (by decide)
  constructor
  · rw [h.1]
    decide
  · exact h.2 ⟨0, "Report A", "O", 5, FileType.image, 1, none⟩ (by decide)
      rfl

/-! Claims C7 and C9: helper lemmas about the favorites relation. -/

theorem pairRel_symm :
    Symmetric (fun a b : FavoriteDoc =>
      ¬(a.userId = b.userId ∧ a.fileId = b.fileId)) := by
  intro a b h hc
  exact h ⟨hc.1.symm, hc.2.symm⟩

theorem countP_favMatches_le_one (l : List FavoriteDoc)
    (h : l.Pairwise (fun a b =>
      ¬(a.userId = b.userId ∧ a.fileId = b.fileId)))
    (uid fid : Nat) : l.countP (favMatches uid fid) ≤ 1 := by
  induction l with
  | nil => simp
  | cons a t ih =>
    rcases List.pairwise_cons.mp h with ⟨ha, ht⟩
    by_cases hma : favMatches uid fid a = true
    · have h0 : t.countP (favMatches uid fid) = 0 := by
        rw [List.countP_eq_zero]
        intro b hb hmb
        simp only [favMatches, Bool.and_eq_true, beq_iff_eq] at hma hmb
        exact (ha b hb) ⟨hma.1.trans hmb.1.symm, hma.2.trans hmb.2.symm⟩
      rw [List.countP_cons, h0, hma]
      simp
    · rw [List.countP_cons]
      simp only [hma]
      simpa using ih ht

theorem favPairCount_le_one (db : DB) (huniq : UniqueFavs db)
    (uid fid : Nat) : favPairCount db uid fid ≤ 1 :=
  countP_favMatches_le_one db.favorites huniq uid fid

theorem idRel_symm : Symmetric (fun a b : FileDoc => a._id ≠ b._id) := by
  intro a b h he
  exact h he.symm

theorem eq_of_mem_of_same_id (l : List FileDoc)
    (hl : l.Pairwise (fun a b => a._id ≠ b._id)) (a b : FileDoc)
    (ha : a ∈ l) (hb : b ∈ l) (h : a._id = b._id) : a = b := by
  by_contra hne
  exact List.Pairwise.forall idRel_symm hl ha hb hne h

theorem hasAccessToFile_files_eq (actor : Option User) (fid : Nat)
    (db1 db2 : DB) (h : db1.files = db2.files) :
    hasAccessToFile actor fid db1 = hasAccessToFile actor fid db2 := by
  unfold hasAccessToFile
  rw [h]

theorem hasAccessToFile_elim (actor : Option User) (fid : Nat) (db : DB)
    (u : User) (file : FileDoc)
    (h : hasAccessToFile actor fid db = some (u, file)) :
    db.files.find? (fun g => g._id == fid) = some file ∧
    hasAccessToOrg actor file.orgId = some u ∧
    file ∈ db.files ∧ file._id = fid := by
  rcases hfind : db.files.find? (fun g => g._id == fid) with _ | f
  · simp [hasAccessToFile, hfind] at h
  rcases horg : hasAccessToOrg actor f.orgId with _ | u2
  · simp [hasAccessToFile, hfind, horg] at h
  · simp only [hasAccessToFile, hfind, horg, Option.some.injEq,
      Prod.mk.injEq] at h
    obtain ⟨hu, hf⟩ := h
    subst hu
    subst hf
    refine ⟨hfind, horg, List.mem_of_find?_eq_some hfind, ?_⟩
    have := List.find?_some hfind
    simpa using this

/-- One `toggleFavorite` step on an accessible file of an invariant-satisfying
store: it succeeds, leaves the files table unchanged, preserves the
invariant, and flips the (userId, fileId) favorite count between 0 and 1. -/
theorem toggle_step (actor : Option User) (fid : Nat) (db : DB)
    (u : User) (file : FileDoc) (hInv : Inv db)
    (hAcc : hasAccessToFile actor fid db = some (u, file)) :
    ∃ db1, toggleFavorite actor fid db = Except.ok db1 ∧
      db1.files = db.files ∧ Inv db1 ∧
      (favPairCount db u._id file._id = 0 →
        favPairCount db1 u._id file._id = 1) ∧
      (favPairCount db u._id file._id = 1 →
        favPairCount db1 u._id file._id = 0) := by
  obtain ⟨hfind, horg, hfmem, hfid⟩ := hasAccessToFile_elim actor fid db u
    file hAcc
  obtain ⟨hidb, hfavb, hpw, huniq, hcons⟩ := hInv
  have hPT : ∀ v ∈ db.favorites, favMatches u._id file._id v = true →
      (v.userId == u._id && v.orgId == file.orgId &&
        v.fileId == file._id) = true := by
    intro v hv hm
    simp only [favMatches, Bool.and_eq_true, beq_iff_eq] at hm ⊢
    exact ⟨⟨hm.1, hcons v hv file hfmem hm.2⟩, hm.2⟩
  have hTP : ∀ v : FavoriteDoc,
      (v.userId == u._id && v.orgId == file.orgId &&
        v.fileId == file._id) = true →
      favMatches u._id file._id v = true := by
    intro v hm
    simp only [favMatches, Bool.and_eq_true, beq_iff_eq] at hm ⊢
    exact ⟨hm.1.1, hm.2⟩
  rcases htf : db.favorites.find? (fun v =>
      v.userId == u._id && v.orgId == file.orgId &&
      v.fileId == file._id) with _ | fav
  · -- no favorite found: insert branch
    have hnopair : ∀ v ∈ db.favorites,
        ¬ favMatches u._id file._id v = true := by
      intro v hv hm
      exact (List.find?_eq_none.mp htf v hv) (hPT v hv hm)
    have hcount0 : favPairCount db u._id file._id = 0 :=
      List.countP_eq_zero.mpr hnopair
    have hok : toggleFavorite actor fid db = Except.ok { db with
        favorites := db.favorites ++
          [⟨db.nextId, file._id, u._id, file.orgId⟩],
        nextId := db.nextId + 1 } := by
      simp [toggleFavorite, hAcc, htf]
    refine ⟨_, hok, rfl, ⟨?_, ?_, hpw, ?_, ?_⟩, ?_, ?_⟩
    · intro f hf
      exact Nat.lt_succ_of_lt (hidb f hf)
    · intro v hv
      rcases List.mem_append.mp hv with h | h
      · exact Nat.lt_succ_of_lt (hfavb v h)
      · rw [List.mem_singleton] at h
        subst h
        exact Nat.lt_succ_of_lt (hidb file hfmem)
    · refine List.pairwise_append.mpr ⟨huniq, by simp, ?_⟩
      intro a ha b hb
      rw [List.mem_singleton] at hb
      subst hb
      intro hc
      exact hnopair a ha (by
        simp only [favMatches, Bool.and_eq_true, beq_iff_eq]
        exact ⟨hc.1, hc.2⟩)
    · intro v hv f hf hvf
      rcases List.mem_append.mp hv with h | h
      · exact hcons v h f hf hvf
      · rw [List.mem_singleton] at h
        subst h
        have hff : f = file :=
          eq_of_mem_of_same_id db.files hpw f file hf hfmem
            (by exact hvf.symm)
        rw [hff]
    · intro _
      show (db.favorites ++
        [(⟨db.nextId, file._id, u._id, file.orgId⟩ : FavoriteDoc)]).countP
          (favMatches u._id file._id) = 1
      rw [List.countP_append]
      have hc0 : db.favorites.countP (favMatches u._id file._id) = 0 :=
        hcount0
      rw [hc0]
      simp [List.countP_cons, favMatches]
    · intro h1
      rw [hcount0] at h1
      exact absurd h1 (by decide)
  · -- favorite found: delete branch
    have hfavmem : fav ∈ db.favorites := List.mem_of_find?_eq_some htf
    have htrip := List.find?_some htf
    have hpf : favMatches u._id file._id fav = true := hTP fav htrip
    have hcount1 : favPairCount db u._id file._id = 1 := by
      have hle := countP_favMatches_le_one db.favorites huniq u._id file._id
      have hne : db.favorites.countP (favMatches u._id file._id) ≠ 0 := by
        intro h0
        exact (List.countP_eq_zero.mp h0 fav hfavmem) hpf
      show db.favorites.countP (favMatches u._id file._id) = 1
      omega
    have hok : toggleFavorite actor fid db = Except.ok { db with
        favorites := db.favorites.filter (fun v => !(v._id == fav._id)) } := by
      simp [toggleFavorite, hAcc, htf]
    have hsub : (db.favorites.filter
        (fun v => !(v._id == fav._id))).Sublist db.favorites :=
      List.filter_sublist db.favorites
    have hzero : (db.favorites.filter
        (fun v => !(v._id == fav._id))).countP
          (favMatches u._id file._id) = 0 := by
      rw [List.countP_filter, List.countP_eq_zero]
      intro v hv hm
      rw [Bool.and_eq_true] at hm
      have hvne : v ≠ fav := by
        intro he
        subst he
        simp at hm
      have hnr := List.Pairwise.forall pairRel_symm huniq hv hfavmem hvne
      simp only [favMatches, Bool.and_eq_true, beq_iff_eq] at hm hpf
      exact hnr ⟨hm.1.1.trans hpf.1.symm, hm.1.2.trans hpf.2.symm⟩
    refine ⟨_, hok, rfl, ⟨hidb, ?_, hpw, huniq.sublist hsub, ?_⟩, ?_, ?_⟩
    · intro v hv
      exact hfavb v (hsub.subset hv)
    · intro v hv f hf hvf
      exact hcons v (hsub.subset hv) f hf hvf
    · intro h0
      rw [hcount1] at h0
      exact absurd h0 (by decide)
    · intro _
      exact hzero

/-- C7: for an actor with read access to a file in an invariant-satisfying
store, toggling the favorite twice restores the number of (userId, fileId)
favorite records to its prior value (hence favorite-existence to its prior
state), and a single toggle starting from no favorite leaves exactly one
favorite record for the pair. -/
theorem C7_toggle_inverse (actor : Option User) (fid : Nat) (db : DB)
    (u : User) (file : FileDoc) (hInv : Inv db)
    (hAcc : hasAccessToFile actor fid db = some (u, file)) :
    (∃ db1 db2, toggleFavorite actor fid db = Except.ok db1 ∧
      toggleFavorite actor fid db1 = Except.ok db2 ∧
      favPairCount db2 u._id file._id = favPairCount db u._id file._id) ∧
    (favPairCount db u._id file._id = 0 →
      ∃ db1, toggleFavorite actor fid db = Except.ok db1 ∧
        favPairCount db1 u._id file._id = 1) := by
  obtain ⟨db1, hok1, hfiles1, hInv1, h01, h10⟩ :=
    toggle_step actor fid db u file hInv hAcc
  have hAcc1 : hasAccessToFile actor fid db1 = some (u, file) := by
    rw [hasAccessToFile_files_eq actor fid db1 db hfiles1]
    exact hAcc
  obtain ⟨db2, hok2, hfiles2, hInv2, h01b, h10b⟩ :=
    toggle_step actor fid db1 u file hInv1 hAcc1
  constructor
  · refine ⟨db1, db2, hok1, hok2, ?_⟩
    have hle : favPairCount db u._id file._id ≤ 1 :=
      favPairCount_le_one db hInv.2.2.2.1 u._id file._id
    rcases Nat.le_one_iff_eq_zero_or_eq_one.mp hle with h0 | h1
    · rw [h0]
      exact h10b (h01 h0)
    · rw [h1]
      exact h01b (h10 h1)
  · intro h0
    exact ⟨db1, hok1, h01 h0⟩

/-- C7, witness: in a one-file store with no favorites, two toggles return
the count for the (1, 0) pair to 0, and one toggle from zero yields
exactly 1. -/
theorem C7_toggle_inverse_witness :
    (∃ db1 db2,
      toggleFavorite (some ⟨1, [⟨"O", "member"⟩]⟩) 0
          ⟨[⟨0, "f", "O", 5, FileType.image, 1, none⟩], [], 1⟩ =
        Except.ok db1 ∧
      toggleFavorite (some ⟨1, [⟨"O", "member"⟩]⟩) 0 db1 = Except.ok db2 ∧
      favPairCount db2 1 0 =
        favPairCount ⟨[⟨0, "f", "O", 5, FileType.image, 1, none⟩], [], 1⟩
          1 0) ∧
    (favPairCount ⟨[⟨0, "f", "O", 5, FileType.image, 1, none⟩], [], 1⟩
        1 0 = 0 →
      ∃ db1,
        toggleFavorite (some ⟨1, [⟨"O", "member"⟩]⟩) 0
            ⟨[⟨0, "f", "O", 5, FileType.image, 1, none⟩], [], 1⟩ =
          Except.ok db1 ∧
        favPairCount db1 1 0 = 1) :=
  C7_toggle_inverse (some ⟨1, [⟨"O", "member"⟩]⟩) 0
    ⟨[⟨0, "f", "O", 5, FileType.image, 1, none⟩], [], 1⟩
    ⟨1, [⟨"O", "member"⟩]⟩ ⟨0, "f", "O", 5, FileType.image, 1, none⟩
    (by decide) (by decide)

/-! Claim C9: invariant preservation by every operation. -/

theorem createFile_inv (actor : Option User) (nm : String) (ref : Nat)
    (orgId : String) (ty : FileType) (db d : DB) (hInv : Inv db)
    (h : createFile actor nm ref orgId ty db = Except.ok d) : Inv d := by
  obtain ⟨hidb, hfavb, hpw, huniq, hcons⟩ := hInv
  rcases hacc : hasAccessToOrg actor orgId with _ | u
  · simp [createFile, hacc] at h
  have hd : d = { db with
      files := db.files ++ [createdFile db u nm ref orgId ty],
      nextId := db.nextId + 1 } := by
    simp [createFile, hacc] at h
    exact h.symm
  subst hd
  refine ⟨?_, ?_, ?_, huniq, ?_⟩
  · intro f hf
    rcases List.mem_append.mp hf with h | h
    · exact Nat.lt_succ_of_lt (hidb f h)
    · rw [List.mem_singleton] at h
      subst h
      exact Nat.lt_succ_self db.nextId
  · intro v hv
    exact Nat.lt_succ_of_lt (hfavb v hv)
  · refine List.pairwise_append.mpr ⟨hpw, by simp, ?_⟩
    intro a ha b hb
    rw [List.mem_singleton] at hb
    subst hb
    exact Nat.ne_of_lt (hidb a ha)
  · intro v hv f hf hvf
    rcases List.mem_append.mp hf with h | h
    · exact hcons v hv f h hvf
    · rw [List.mem_singleton] at h
      subst h
      exact absurd hvf (Nat.ne_of_lt (hfavb v hv))

theorem deleteFile_ok_shape (actor : Option User) (fid : Nat) (db d : DB)
    (h : deleteFile actor fid db = Except.ok d) :
    d = setShouldDelete db fid true := by
  rcases hacc : hasAccessToFile actor fid db with _ | p
  · simp [deleteFile, hacc] at h
  obtain ⟨u, file⟩ := p
  rcases hcd : canDelete u file with _ | _
  · simp [deleteFile, hacc, hcd] at h
  · simp [deleteFile, hacc, hcd] at h
    exact h.symm

theorem restoreFile_ok_shape (actor : Option User) (fid : Nat) (db d : DB)
    (h : restoreFile actor fid db = Except.ok d) :
    d = setShouldDelete db fid false := by
  rcases hacc : hasAccessToFile actor fid db with _ | p
  · simp [restoreFile, hacc] at h
  obtain ⟨u, file⟩ := p
  rcases hcd : canDelete u file with _ | _
  · simp [restoreFile, hacc, hcd] at h
  · simp [restoreFile, hacc, hcd] at h
    exact h.symm

theorem setShouldDelete_inv (db : DB) (fid : Nat) (b : Bool)
    (hInv : Inv db) : Inv (setShouldDelete db fid b) := by
  obtain ⟨hidb, hfavb, hpw, huniq, hcons⟩ := hInv
  refine ⟨?_, hfavb, ?_, huniq, ?_⟩
  · intro f hf
    rcases List.mem_map.mp hf with ⟨x, hx, hfx⟩
    subst hfx
    rw [patchFile_id]
    exact hidb x hx
  · refine List.pairwise_map.mpr ?_
    refine hpw.imp ?_
    intro a b hab
    rw [patchFile_id, patchFile_id]
    exact hab
  · intro v hv f hf hvf
    rcases List.mem_map.mp hf with ⟨x, hx, hfx⟩
    subst hfx
    rw [patchFile_id] at hvf
    rw [patchFile_orgId]
    exact hcons v hv x hx hvf

theorem purge_inv (blobOk : Nat → Bool) (db : DB) (hInv : Inv db) :
    Inv (deleteAllFiles blobOk db).1 := by
  obtain ⟨hidb, hfavb, hpw, huniq, hcons⟩ := hInv
  rw [deleteAllFiles_fst]
  have hs : (db.files.filter (fun f =>
      !(f.shouldDelete == some true && blobOk f.fileId))).Sublist db.files :=
    List.filter_sublist db.files
  refine ⟨?_, hfavb, hpw.sublist hs, huniq, ?_⟩
  · intro f hf
    exact hidb f (hs.subset hf)
  · intro v hv f hf hvf
    exact hcons v hv f (hs.subset hf) hvf

theorem applyOp_inv (db : DB) (op : Op) (hInv : Inv db) :
    Inv (applyOp db op) := by
  cases op with
  | create a nm s o t =>
    rcases h : createFile a nm s o t db with _ | d
    · simpa [applyOp, h] using hInv
    · simpa [applyOp, h] using createFile_inv a nm s o t db d hInv h
  | del a f =>
    rcases h : deleteFile a f db with _ | d
    · simpa [applyOp, h] using hInv
    · have hd := deleteFile_ok_shape a f db d h
      subst hd
      simpa [applyOp, h] using setShouldDelete_inv db f true hInv
  | restore a f =>
    rcases h : restoreFile a f db with _ | d
    · simpa [applyOp, h] using hInv
    · have hd := restoreFile_ok_shape a f db d h
      subst hd
      simpa [applyOp, h] using setShouldDelete_inv db f false hInv
  | toggle a f =>
    rcases hacc : hasAccessToFile a f db with _ | p
    · have herr : toggleFavorite a f db = Except.error Err.noFileAccess := by
        simp [toggleFavorite, hacc]
      simpa [applyOp, herr] using hInv
    · obtain ⟨u, file⟩ := p
      obtain ⟨db1, hok, _, hInv1, _, _⟩ :=
        toggle_step a f db u file hInv hacc
      simpa [applyOp, hok] using hInv1
  | purge blobOk =>
    simpa [applyOp] using purge_inv blobOk db hInv

/-- C9, counterexample: the store satisfies at-most-one-favorite-per
(userId, fileId), but it contains a favorite whose organizationId ("B")
differs from its file's ("O"); the triple-keyed lookup of `toggleFavorite`
misses it and inserts a second favorite for the same user and file —
refuting the claim for arbitrary uniqueness-satisfying states. -/
theorem C9_counterexample :
    UniqueFavs ⟨[⟨0, "f", "O", 5, FileType.image, 1, none⟩],
      [⟨1, 0, 1, "B"⟩], 2⟩ ∧
    toggleFavorite (some ⟨1, [⟨"O", "member"⟩]⟩) 0
        ⟨[⟨0, "f", "O", 5, FileType.image, 1, none⟩], [⟨1, 0, 1, "B"⟩], 2⟩ =
      Except.ok ⟨[⟨0, "f", "O", 5, FileType.image, 1, none⟩],
        [⟨1, 0, 1, "B"⟩, ⟨2, 0, 1, "O"⟩], 3⟩ ∧
    favPairCount ⟨[⟨0, "f", "O", 5, FileType.image, 1, none⟩],
      [⟨1, 0, 1, "B"⟩, ⟨2, 0, 1, "O"⟩], 3⟩ 1 0 = 2 := by
  decide

/-- C9 (amended): starting from a state satisfying uniqueness together with
the companion invariants every reachable state satisfies (each favorite of
an existing file carries the file's organization, record ids and favorite
file references are below the id allocator, file ids are distinct), no
sequence of createFile / deleteFile / restoreFile / toggleFavorite / purge
calls produces two Favorite records for the same user and file. -/
theorem C9_uniqueness_amended (db : DB) (ops : List Op) (hInv : Inv db) :
    Inv (ops.foldl applyOp db) ∧
    ∀ uid fid, favPairCount (ops.foldl applyOp db) uid fid ≤ 1 := by
  have main : ∀ (l : List Op) (d : DB), Inv d → Inv (l.foldl applyOp d) := by
    intro l
    induction l with
    | nil => intro d h; exact h
    | cons op rest ih =>
      intro d h
      exact ih (applyOp d op) (applyOp_inv d op h)
  have hI := main ops db hInv
  exact ⟨hI, fun uid fid => favPairCount_le_one _ hI.2.2.2.1 uid fid⟩

/-- C9 (amended), witness: a toggle followed by a delete on a concrete
invariant-satisfying store keeps the invariant and the per-pair bound. -/
theorem C9_uniqueness_amended_witness :
    Inv ([Op.toggle (some ⟨1, [⟨"O", "member"⟩]⟩) 0,
        Op.del (some ⟨1, [⟨"O", "member"⟩]⟩) 0].foldl applyOp
      ⟨[⟨0, "f", "O", 5, FileType.image, 1, none⟩], [], 1⟩) ∧
    ∀ uid fid, favPairCount
      ([Op.toggle (some ⟨1, [⟨"O", "member"⟩]⟩) 0,
        Op.del (some ⟨1, [⟨"O", "member"⟩]⟩) 0].foldl applyOp
        ⟨[⟨0, "f", "O", 5, FileType.image, 1, none⟩], [], 1⟩) uid fid ≤ 1 :=
  C9_uniqueness_amended ⟨[⟨0, "f", "O", 5, FileType.image, 1, none⟩], [], 1⟩
    [Op.toggle (some ⟨1, [⟨"O", "member"⟩]⟩) 0,
      Op.del (some ⟨1, [⟨"O", "member"⟩]⟩) 0] (by decide)

end FileDrive
